import Mathlib

/-!
# autorest: the generic CRUD engine over a relational store

A shallow embedding of `object.go` (the engine), of the list handlers of the
`gorilla` and `vanilla` adapters, and of the collaborators the engine is
written against (decoder, logger, store).

The engine is embedded with explicit state passing.  The state is a `World`:
the store's own state, the messages handed to the logger so far, and the store
operations issued so far.  The store (`*gorm.DB`) is not part of the
repository; it is a parameter of the embedding (`DB`), and `memDB` is a
reference store used to evaluate the engine on concrete inputs.
-/

set_option autoImplicit false

namespace autorest

/-! ## Go values -/

/-- Go `error` values.  `ErrRecordNotFound` is `gorm.ErrRecordNotFound`, `msg`
is any other error, and `wrap` is an error wrapping another one (`%w`). -/
inductive GoError where
  | ErrRecordNotFound : GoError
  | msg : String → GoError
  | wrap : String → GoError → GoError
  deriving Repr, DecidableEq

/-- The test `errors.Is(err, gorm.ErrRecordNotFound)`: it walks the chain of
wrapped errors. -/
def GoError.IsRecordNotFound : GoError → Bool
  | .ErrRecordNotFound => true
  | .msg _ => false
  | .wrap _ e => e.IsRecordNotFound

/-- Go `int` arithmetic is 64-bit two's complement: the value a mathematical
result takes once it is stored in an `int`. -/
def wrapInt (x : Int) : Int := (x + 2 ^ 63) % 2 ^ 64 - 2 ^ 63

/-- The Go expression `a * b` on `int`. -/
def mulInt (a b : Int) : Int := wrapInt (a * b)

/-- A Go slice, as the sequence of its elements. -/
abbrev Slice (α : Type) := List α

namespace http

/-- The constant `http.StatusOK`. -/
abbrev StatusOK : Nat := 200

/-- The constant `http.StatusBadRequest`. -/
abbrev StatusBadRequest : Nat := 400

/-- The constant `http.StatusNotFound`. -/
abbrev StatusNotFound : Nat := 404

/-- The constant `http.StatusInternalServerError`. -/
abbrev StatusInternalServerError : Nat := 500

end http

/-! ## The data model of `object.go` -/

/-- What the engine needs of `RegisteredType.Type` (a `reflect.Type`): a blank
record (`reflect.New(rt.Type)`), and the numeric primary key `ID` the store
reads and assigns. -/
structure Shape (α : Type) where
  zero : α
  ID : α → Nat
  setID : α → Nat → α
  ID_setID : ∀ r n, ID (setID r n) = n
  setID_ID : ∀ r, setID r (ID r) = r

/-- The interface `Decoder`: `Decode` is handed a record, overlays the payload
it is bound to, and returns an error or nil.  The record after the call is
returned next to the error. -/
structure Decoder (α : Type) where
  Decode : α → α × Option GoError

/-- A store operation, as issued by the engine. -/
inductive Call (α : Type) where
  | Create : α → Call α
  | First : Nat → Call α
  | Count : Call α
  | Find : Option Int → Option Int → Call α
  | Save : α → Call α
  | Delete : Nat → Call α
  deriving Repr, DecidableEq

/-- The part of `*gorm.DB` the engine calls, over a store state `σ`.  Every
operation returns the store state it leaves and its `.Error`; operations that
fill a destination also return the destination after the call.  `Find` takes
the offset and the limit set on the query, `none` when `Offset` or `Limit` was
not called. -/
structure DB (σ α : Type) where
  Create : σ → α → σ × α × Option GoError
  First : σ → α → Nat → σ × α × Option GoError
  Count : σ → σ × Int × Option GoError
  Find : σ → Option Int → Option Int → σ × Slice α × Option GoError
  Save : σ → α → σ × α × Option GoError
  Delete : σ → Nat → σ × Option GoError

/-- The struct `RegisteredType`: a record shape bound to a store handle. -/
structure RegisteredType (σ α : Type) where
  Typ : Shape α
  DB : autorest.DB σ α

/-- The struct `listHeader`: the envelope `List` returns. -/
structure listHeader (α : Type) where
  Page : Int
  Limit : Int
  Total : Int
  Data : Slice α
  deriving Repr, DecidableEq

/-- Everything an engine operation can change: the store, the messages given
to the `Logger` (oldest first) and the store operations issued (oldest
first). -/
structure World (σ α : Type) where
  db : σ
  log : List GoError
  calls : List (Call α)

/-- The call `log.Println(err)`. -/
def World.Println {σ α : Type} (w : World σ α) (err : GoError) : World σ α :=
  { w with log := w.log ++ [err] }

/-- The world after the store has run the operation `c` and is left in state
`db`. -/
def World.ran {σ α : Type} (w : World σ α) (c : Call α) (db : σ) : World σ α :=
  { w with db := db, calls := w.calls ++ [c] }

/-! ## The engine (`object.go`, lines 81 to 199) -/

/-- The method `RegisteredType.Create`. -/
def RegisteredType.Create {σ α : Type} (rt : RegisteredType σ α) (v : Decoder α)
    (w : World σ α) : Nat × World σ α :=
  let newX := rt.Typ.zero
  match v.Decode newX with
  | (_, some err) => (http.StatusBadRequest, w.Println err)
  | (newX, none) =>
    match rt.DB.Create w.db newX with
    | (db, _, some err) =>
      (http.StatusInternalServerError, (w.ran (Call.Create newX) db).Println err)
    | (db, _, none) => (http.StatusOK, w.ran (Call.Create newX) db)

/-- The method `RegisteredType.Read`. -/
def RegisteredType.Read {σ α : Type} (rt : RegisteredType σ α) (id : Nat)
    (w : World σ α) : Option α × Nat × World σ α :=
  let newX := rt.Typ.zero
  match rt.DB.First w.db newX id with
  | (db, _, some err) =>
    let w := (w.ran (Call.First id) db).Println err
    if err.IsRecordNotFound then (none, http.StatusNotFound, w)
    else (none, http.StatusInternalServerError, w)
  | (db, newX, none) => (some newX, http.StatusOK, w.ran (Call.First id) db)

/-- The method `RegisteredType.List`. -/
def RegisteredType.List {σ α : Type} (rt : RegisteredType σ α) (page limit : Int)
    (w : World σ α) : Option (listHeader α) × Nat × World σ α :=
  match rt.DB.Count w.db with
  | (db, _, some err) =>
    (none, http.StatusInternalServerError, (w.ran Call.Count db).Println err)
  | (db, count, none) =>
    let w := w.ran Call.Count db
    let offset := if page > 0 then some (mulInt page limit) else none
    let lim := if limit > 0 then some limit else none
    match rt.DB.Find w.db offset lim with
    | (db, _, some err) =>
      let w := (w.ran (Call.Find offset lim) db).Println err
      if err.IsRecordNotFound then (none, http.StatusNotFound, w)
      else (none, http.StatusInternalServerError, w)
    | (db, newXS, none) =>
      (some ⟨page, limit, count, newXS⟩, http.StatusOK, w.ran (Call.Find offset lim) db)

/-- The method `RegisteredType.Update`.  The error of `Save` is not looked
at. -/
def RegisteredType.Update {σ α : Type} (rt : RegisteredType σ α) (id : Nat)
    (v : Decoder α) (w : World σ α) : Nat × World σ α :=
  let newX := rt.Typ.zero
  match rt.DB.First w.db newX id with
  | (db, _, some err) =>
    let w := (w.ran (Call.First id) db).Println err
    if err.IsRecordNotFound then (http.StatusNotFound, w)
    else (http.StatusInternalServerError, w)
  | (db, newX, none) =>
    let w := w.ran (Call.First id) db
    match v.Decode newX with
    | (_, some err) => (http.StatusBadRequest, w.Println err)
    | (newX, none) =>
      match rt.DB.Save w.db newX with
      | (db, _, _) => (http.StatusOK, w.ran (Call.Save newX) db)

/-- The method `RegisteredType.Delete`. -/
def RegisteredType.Delete {σ α : Type} (rt : RegisteredType σ α) (id : Nat)
    (w : World σ α) : Nat × World σ α :=
  match rt.DB.Delete w.db id with
  | (db, some err) =>
    let w := (w.ran (Call.Delete id) db).Println err
    if err.IsRecordNotFound then (http.StatusNotFound, w)
    else (http.StatusInternalServerError, w)
  | (db, none) => (http.StatusOK, w.ran (Call.Delete id) db)

/-! ## A reference store -/

/-- The rows a query returns from the sequence `xs` of matching rows: the
first `offset` are skipped when an offset is set, and at most `limit` are kept
when a limit is set.  An offset that is not positive skips nothing and a
negative limit is no limit (gorm writes no `OFFSET` or `LIMIT` for them). -/
def window {α : Type} (offset limit : Option Int) (xs : Slice α) : Slice α :=
  let ys := match offset with
    | some o => xs.drop o.toNat
    | none => xs
  match limit with
  | some l => if l < 0 then ys else ys.take l.toNat
  | none => ys

/-- The state of the reference store: the rows of the one table, in the
order the store lists them, and the last identifier it assigned. -/
structure Table (α : Type) where
  rows : List α
  seq : Nat
  deriving Repr, DecidableEq

/-- The next identifier the table assigns: one more than every identifier in
use or assigned before. -/
def Table.nextID {α : Type} (sh : Shape α) (t : Table α) : Nat :=
  (t.rows.map sh.ID).foldl max t.seq + 1

/-- Modelled from the spec: the store's `insert(record) -> error` (gorm's
`Create`, which is not part of the repository).  A record without identifier
(`ID` zero) is assigned the next one; a record that brings an identifier is
inserted under it unless a row already has it. -/
def memCreate {α : Type} (sh : Shape α) (t : Table α) (x : α) :
    Table α × α × Option GoError :=
  if sh.ID x = 0 then
    (⟨t.rows ++ [sh.setID x (t.nextID sh)], t.nextID sh⟩, sh.setID x (t.nextID sh), none)
  else if t.rows.any (fun r => sh.ID r == sh.ID x) then
    (t, x, some (GoError.msg "UNIQUE constraint failed"))
  else
    (⟨t.rows ++ [x], max t.seq (sh.ID x)⟩, x, none)

/-- Modelled from the spec: the store's `first-by-id(shape, id) -> (record,
error)` (gorm's `First`): the first row with the identifier, or the "no rows"
error `ErrRecordNotFound`. -/
def memFirst {α : Type} (sh : Shape α) (t : Table α) (dest : α) (id : Nat) :
    Table α × α × Option GoError :=
  match t.rows.find? (fun r => sh.ID r == id) with
  | some r => (t, r, none)
  | none => (t, dest, some GoError.ErrRecordNotFound)

/-- Modelled from the spec: the store's `count(shape) -> (int64, error)`. -/
def memCount {α : Type} (t : Table α) : Table α × Int × Option GoError :=
  (t, (t.rows.length : Int), none)

/-- Modelled from the spec: the store's `query(shape, offset, limit) ->
(records, error)` (gorm's `Find`). -/
def memFind {α : Type} (t : Table α) (offset limit : Option Int) :
    Table α × Slice α × Option GoError :=
  (t, window offset limit t.rows, none)

/-- Modelled from the spec: the store's `save/merge-write(record) -> error`
(gorm's `Save`): the rows with the record's identifier are overwritten by the
record, and the record is inserted when there is none. -/
def memSave {α : Type} (sh : Shape α) (t : Table α) (x : α) :
    Table α × α × Option GoError :=
  if t.rows.any (fun r => sh.ID r == sh.ID x) then
    (⟨t.rows.map (fun r => if sh.ID r = sh.ID x then x else r), t.seq⟩, x, none)
  else memCreate sh t x

/-- Modelled from the spec: the store's `delete(shape, id) -> error` (gorm's
`Delete`): the rows with the identifier are removed.  Removing no row is not an
error: gorm raises `ErrRecordNotFound` only from `First`, `Take` and `Last`. -/
def memDelete {α : Type} (sh : Shape α) (t : Table α) (id : Nat) :
    Table α × Option GoError :=
  (⟨t.rows.filter (fun r => sh.ID r != id), t.seq⟩, none)

/-- The reference store: one table held in memory, no operation of which
fails for a reason other than the data. -/
def memDB {α : Type} (sh : Shape α) : DB (Table α) α where
  Create := memCreate sh
  First := memFirst sh
  Count := memCount
  Find := memFind
  Save := memSave sh
  Delete := memDelete sh

/-- The engine registered on the reference store (`RegisterType`). -/
def memType {α : Type} (sh : Shape α) : RegisteredType (Table α) α :=
  ⟨sh, memDB sh⟩

/-- A store that behaves as `db` except that every merge-write is refused
with the error `err` and changes nothing. -/
def refuseSave {σ α : Type} (db : DB σ α) (err : GoError) : DB σ α :=
  { db with Save := fun s x => (s, x, some err) }

/-- A store that behaves as `db` except that every count fails with the error
`err`. -/
def refuseCount {σ α : Type} (db : DB σ α) (err : GoError) : DB σ α :=
  { db with Count := fun s => (s, 0, some err) }

/-- The world in which the store is in state `db` and nothing has been logged
or issued yet. -/
def World.start {σ α : Type} (db : σ) : World σ α := ⟨db, [], []⟩

/-! ## The store contract -/

/-- What the engine's data-level properties need of a store whose rows are
`rows s` in state `s`: look-ups by identifier answer from the rows and report
the "no rows" error when there is none, reads leave the rows alone, and a write
that reports no error has done what it names. -/
structure Relational {σ α : Type} (sh : Shape α) (db : DB σ α) (rows : σ → List α) :
    Prop where
  First_found : ∀ s dest id r, (rows s).find? (fun x => sh.ID x == id) = some r →
    ∃ s', db.First s dest id = (s', r, none) ∧ rows s' = rows s
  First_absent : ∀ s dest id, (rows s).find? (fun x => sh.ID x == id) = none →
    ∃ s' x e, db.First s dest id = (s', x, some e) ∧ e.IsRecordNotFound = true ∧
      rows s' = rows s
  Create_ok : ∀ s x s' x', db.Create s x = (s', x', none) →
    rows s' = rows s ++ [x'] ∧ x' = sh.setID x (sh.ID x') ∧ ∀ r ∈ rows s, sh.ID r ≠ sh.ID x'
  Count_ok : ∀ s s' n, db.Count s = (s', n, none) →
    n = ((rows s).length : Int) ∧ rows s' = rows s
  Find_ok : ∀ s o l s' xs, db.Find s o l = (s', xs, none) →
    xs = window o l (rows s) ∧ rows s' = rows s
  Save_held : ∀ s x, (∃ r ∈ rows s, sh.ID r = sh.ID x) →
    ∃ s' x', db.Save s x = (s', x', none) ∧
      rows s' = (rows s).map (fun r => if sh.ID r = sh.ID x then x else r)
  Delete_ok : ∀ s id s', db.Delete s id = (s', none) →
    rows s' = (rows s).filter (fun r => sh.ID r != id)

/-- The record the store holds under the identifier `id`, if any. -/
def held {α : Type} (sh : Shape α) (xs : List α) (id : Nat) : Option α :=
  xs.find? (fun x => sh.ID x == id)

/-! ## The record type of the test suite -/

/-- The struct `TestType` of `gorilla/endpoint_test.go`. -/
structure TestType where
  ID : Nat
  String : String
  Int : Int
  deriving Repr, DecidableEq

/-- The shape of `TestType`. -/
def TestShape : Shape TestType where
  zero := ⟨0, "", 0⟩
  ID := fun r => r.ID
  setID := fun r n => { r with ID := n }
  ID_setID := fun _ _ => rfl
  setID_ID := fun _ => rfl

/-- The names of the fields of `TestType`. -/
inductive TestField where
  | ID
  | String
  | Int
  deriving Repr, DecidableEq

/-- The values a field of `TestType` takes. -/
inductive TestValue where
  | uint : Nat → TestValue
  | string : String → TestValue
  | int : Int → TestValue
  deriving Repr, DecidableEq

/-- The value of a field of a `TestType` record. -/
def TestType.field (r : TestType) : TestField → TestValue
  | TestField.ID => TestValue.uint r.ID
  | TestField.String => TestValue.string r.String
  | TestField.Int => TestValue.int r.Int

/-- A JSON object for `TestType`: each key is present with a value or
absent. -/
structure TestJSON where
  ID : Option Nat
  String : Option String
  Int : Option Int
  deriving Repr, DecidableEq

/-- The `json.Decoder` bound to a body: `none` is a body that is not valid
JSON, on which `Decode` fails; on an object, `Decode` sets the fields whose
keys are present and leaves the others as they are. -/
def jsonDecoder (body : Option TestJSON) : Decoder TestType where
  Decode := fun r =>
    match body with
    | none => (r, some (GoError.msg "invalid character"))
    | some j => (⟨j.ID.getD r.ID, j.String.getD r.String, j.Int.getD r.Int⟩, none)

/-- The record the test suite creates, as the store holds it. -/
def seedRecord : TestType := ⟨1, "test", 5⟩

/-- The reference store after the test suite's `POST`: one row, identifier 1. -/
def seedTable : Table TestType := ⟨[seedRecord], 1⟩

/-- The body `{"Int": 10}` of the test suite's `PUT`. -/
def intTen : TestJSON := ⟨none, none, some 10⟩

/-- The body `{"String": "test", "Int": 5}` of the test suite's `POST`. -/
def seedBody : TestJSON := ⟨none, some "test", some 5⟩

/-! ## The page of a listing, in the words of the specification -/

/-- The page of the record sequence `xs` as the specification words it: the
first `page * limit` records are skipped exactly when `page > 0`, and the rest
is cut to `limit` records exactly when `limit > 0`.  The product is the
product of the two integers. -/
def specPage {α : Type} (page limit : Int) (xs : List α) : List α :=
  let ys := if page > 0 then xs.drop (page * limit).toNat else xs
  if limit > 0 then ys.take limit.toNat else ys

/-- The page of `xs` the engine asks the store for: as `specPage`, with the
product computed on Go's `int`. -/
def enginePage {α : Type} (page limit : Int) (xs : List α) : List α :=
  let ys := if page > 0 then xs.drop (mulInt page limit).toNat else xs
  if limit > 0 then ys.take limit.toNat else ys

/-! ## The transport adapters: the list endpoint -/

/-- The bit field type `EndpointTypes`. -/
abbrev EndpointTypes := Nat

/-- The constant `EndpointTypeList`. -/
abbrev EndpointTypeList : EndpointTypes := 4

/-- The constant `EndpointTypeAll`. -/
abbrev EndpointTypeAll : EndpointTypes := 31

namespace strconv

/-- Modelled from the spec: the parsing of the page and limit parameters,
whose malformed values are rejected before the engine is invoked.  The
adapters parse with `strconv.Atoi` of the Go standard library: an optional
sign, then one or more decimal digits, the value within the range of `int`;
anything else is an error. -/
def Atoi (s : String) : Except GoError Int :=
  let digits := match s.toList with
    | '-' :: t => t
    | '+' :: t => t
    | cs => cs
  if digits.isEmpty || !digits.all Char.isDigit then
    Except.error (GoError.msg "strconv.Atoi: invalid syntax")
  else
    let n : Int := digits.foldl (fun n c => n * 10 + ((c.toNat - 48 : Nat) : Int)) 0
    let v := if s.toList.head? = some '-' then -n else n
    if v < -(2 ^ 63) ∨ 2 ^ 63 ≤ v then
      Except.error (GoError.msg "strconv.Atoi: value out of range")
    else Except.ok v

end strconv

/-- An HTTP request, as far as the list endpoints look at it: the method, the
segments of the URL path, and the parameters of the URL query string in the
order they are written. -/
structure Request where
  Method : String
  Path : List String
  Query : List (String × String)
  deriving Repr, DecidableEq

/-- What a list handler writes: the status given to `WriteHeader` and the
value given to the JSON encoder, if any. -/
structure Response (α : Type) where
  Code : Nat
  Body : Option (listHeader α)
  deriving Repr, DecidableEq

/-- The shared tail of both list handlers: call the engine's `List`, write its
status, and encode its value when there is one. -/
def respondList {σ α : Type} (rt : RegisteredType σ α) (page limit : Int)
    (w : World σ α) : Response α × World σ α :=
  match rt.List page limit w with
  | (v, code, w) => (⟨code, v⟩, w)

namespace gorilla

/-- A segment of a gorilla/mux path template: literal text, or a variable
`{name:[0-9]+}`. -/
inductive Segment where
  | lit : String → Segment
  | capture : String → Segment
  deriving Repr, DecidableEq

/-- Modelled from the spec: the path matching of the router the gorilla
adapter mounts its routes on (gorilla/mux, an external collaborator).  A
request path is matched against a route's path template; on a match the result
is the map `mux.Vars` returns for the request: one entry for each variable of
the template, holding the path segment it matched.  The query string has no
part in it. -/
def Match : List Segment → List String → Option (List (String × String))
  | [], [] => some []
  | Segment.lit s :: ts, p :: ps => if s = p then Match ts ps else none
  | Segment.capture n :: ts, p :: ps =>
    if !p.isEmpty && p.toList.all Char.isDigit then
      (Match ts ps).map (fun vars => (n, p) :: vars)
    else none
  | _, _ => none

/-- The template of the route `sub.HandleFunc("", ...)` of the subrouter
`router.PathPrefix(path)`: the mount prefix and nothing more. -/
def ListRoute (path : List String) : List Segment := path.map Segment.lit

/-- The page and limit the list handler of `gorilla/endpoints.go` (lines 92 to
113) passes to the engine, or the error it answers 400 for: both are looked up
in `mux.Vars(r)`. -/
def ListParams (vars : List (String × String)) : Except GoError (Int × Int) :=
  match (match vars.lookup "page" with
    | some pageS => strconv.Atoi pageS
    | none => Except.ok 0) with
  | Except.error err => Except.error err
  | Except.ok page =>
    match (match vars.lookup "limit" with
      | some limitS => strconv.Atoi limitS
      | none => Except.ok 0) with
    | Except.error err => Except.error err
    | Except.ok limit => Except.ok (page, limit)

/-- The list handler of `gorilla/endpoints.go` (lines 89 to 124). -/
def ListHandler {σ α : Type} (rt : RegisteredType σ α) (vars : List (String × String))
    (w : World σ α) : Response α × World σ α :=
  match ListParams vars with
  | Except.error err => (⟨http.StatusBadRequest, none⟩, w.Println err)
  | Except.ok (page, limit) => respondList rt page limit w

/-- The list route `CreateEndpoints` mounts at `path`: `none` when the route
is not mounted or does not match the request. -/
def ServeList {σ α : Type} (rt : RegisteredType σ α) (desiredEndpoints : EndpointTypes)
    (path : List String) (r : Request) (w : World σ α) :
    Option (Response α × World σ α) :=
  if desiredEndpoints &&& EndpointTypeList ≠ 0 ∧ r.Method = "GET" then
    match Match (ListRoute path) r.Path with
    | some vars => some (ListHandler rt vars w)
    | none => none
  else none

end gorilla

namespace vanilla

/-- Modelled from the spec: the query parsing of the vanilla adapter,
`r.FormValue(key)` of net/http, on a request without body: the first value of
the key in the query string, or the empty string. -/
def FormValue (r : Request) (key : String) : String :=
  (r.Query.lookup key).getD ""

/-- The page and limit the list branch of `vanilla/endpoints.go` (lines 69 to
90) passes to the engine, or the error it answers 400 for: both are read with
`r.FormValue`, an empty value standing for an absent parameter. -/
def ListParams (r : Request) : Except GoError (Int × Int) :=
  match (if FormValue r "page" ≠ "" then strconv.Atoi (FormValue r "page")
    else Except.ok 0) with
  | Except.error err => Except.error err
  | Except.ok page =>
    match (if FormValue r "limit" ≠ "" then strconv.Atoi (FormValue r "limit")
      else Except.ok 0) with
    | Except.error err => Except.error err
    | Except.ok limit => Except.ok (page, limit)

/-- The list branch of the handler `CreateEndpoints` mounts at `path`
(`vanilla/endpoints.go`, lines 60 to 103): `none` when the request is not a
`GET` on `path` without `id`, or the list endpoint is not wanted. -/
def ServeList {σ α : Type} (rt : RegisteredType σ α) (desiredEndpoints : EndpointTypes)
    (path : List String) (r : Request) (w : World σ α) :
    Option (Response α × World σ α) :=
  if r.Path = path ∧ r.Method = "GET" ∧ FormValue r "id" = "" ∧
      desiredEndpoints &&& EndpointTypeList ≠ 0 then
    match ListParams r with
    | Except.error err => some (⟨http.StatusBadRequest, none⟩, w.Println err)
    | Except.ok (page, limit) => some (respondList rt page limit w)
  else none

end vanilla

/-- The request `GET /test?page=1&limit=2`. -/
def pageRequest : Request := ⟨"GET", ["test"], [("page", "1"), ("limit", "2")]⟩

/-- The reference store with every merge-write refused. -/
def lockedType : RegisteredType (Table TestType) TestType :=
  ⟨TestShape, refuseSave (memDB TestShape) (GoError.msg "database is locked")⟩

/-- The reference store with every count failing with the "no rows" error. -/
def countlessType : RegisteredType (Table TestType) TestType :=
  ⟨TestShape, refuseCount (memDB TestShape) GoError.ErrRecordNotFound⟩

/-! ## Lemmas on lists and on the reference store -/

theorem foldl_max_ge (l : List Nat) (a : Nat) :
    a ≤ l.foldl max a ∧ ∀ x ∈ l, x ≤ l.foldl max a := by
  induction l generalizing a with
  | nil => simp
  | cons y ys ih =>
    simp only [List.foldl_cons, List.mem_cons, forall_eq_or_imp]
    obtain ⟨h1, h2⟩ := ih (max a y)
    exact ⟨le_trans (le_max_left a y) h1, le_trans (le_max_right a y) h1, h2⟩

theorem nextID_fresh {α : Type} (sh : Shape α) (t : Table α) :
    ∀ r ∈ t.rows, sh.ID r ≠ t.nextID sh := by
  intro r hr
  have h := (foldl_max_ge (t.rows.map sh.ID) t.seq).2 (sh.ID r) (List.mem_map_of_mem _ hr)
  unfold Table.nextID
  omega

theorem find_map_overwrite {α : Type} (sh : Shape α) (xs : List α) (y r : α)
    (h : xs.find? (fun x => sh.ID x == sh.ID y) = some r) :
    (xs.map (fun x => if sh.ID x = sh.ID y then y else x)).find?
      (fun x => sh.ID x == sh.ID y) = some y := by
  induction xs with
  | nil => simp at h
  | cons a as ih =>
    by_cases ha : sh.ID a = sh.ID y
    · simp [ha]
    · have h' : as.find? (fun x => sh.ID x == sh.ID y) = some r := by
        simpa [List.find?_cons, ha] using h
      simp [List.find?_cons, ha, ih h']

theorem map_overwrite_twice {α : Type} (sh : Shape α) (xs : List α) (y : α) :
    ((xs.map (fun x => if sh.ID x = sh.ID y then y else x)).map
      (fun x => if sh.ID x = sh.ID y then y else x)) =
    xs.map (fun x => if sh.ID x = sh.ID y then y else x) := by
  rw [List.map_map]
  apply List.map_congr_left
  intro a _
  by_cases ha : sh.ID a = sh.ID y <;> simp [ha]

theorem find_filter_ne {α : Type} (sh : Shape α) (xs : List α) (id : Nat) :
    (xs.filter (fun r => sh.ID r != id)).find? (fun x => sh.ID x == id) = none := by
  simp [List.find?_eq_none, List.mem_filter]

theorem find_ID {α : Type} (sh : Shape α) (xs : List α) (id : Nat) (r : α)
    (h : xs.find? (fun x => sh.ID x == id) = some r) : r ∈ xs ∧ sh.ID r = id := by
  have h1 := List.find?_some h
  have h2 := List.mem_of_find?_eq_some h
  exact ⟨h2, by simpa using h1⟩

/-- The reference store meets the store contract. -/
theorem memDB_relational {α : Type} (sh : Shape α) :
    Relational sh (memDB sh) Table.rows where
  First_found := by
    intro s dest id r h
    exact ⟨s, by simp [memDB, memFirst, h], rfl⟩
  First_absent := by
    intro s dest id h
    exact ⟨s, dest, GoError.ErrRecordNotFound, by simp [memDB, memFirst, h], rfl, rfl⟩
  Create_ok := by
    intro s x s' x' h
    simp only [memDB, memCreate] at h
    split_ifs at h with h0 hany
    · simp only [Prod.mk.injEq, and_true] at h
      obtain ⟨hs, hx⟩ := h
      subst hs hx
      rw [sh.ID_setID]
      exact ⟨rfl, rfl, nextID_fresh sh s⟩
    · simp at h
    · simp only [Prod.mk.injEq, and_true] at h
      obtain ⟨hs, hx⟩ := h
      subst hs hx
      refine ⟨rfl, (sh.setID_ID x).symm, ?_⟩
      intro r hr hid
      apply hany
      simp only [List.any_eq_true, beq_iff_eq]
      exact ⟨r, hr, hid⟩
  Count_ok := by
    intro s s' n h
    simp only [memDB, memCount, Prod.mk.injEq, and_true] at h
    obtain ⟨hs, hn⟩ := h
    subst hs hn
    exact ⟨rfl, rfl⟩
  Find_ok := by
    intro s o l s' xs h
    simp only [memDB, memFind, Prod.mk.injEq, and_true] at h
    obtain ⟨hs, hx⟩ := h
    subst hs hx
    exact ⟨rfl, rfl⟩
  Save_held := by
    intro s x hx
    have hany : s.rows.any (fun r => sh.ID r == sh.ID x) = true := by
      simpa only [List.any_eq_true, beq_iff_eq] using hx
    refine ⟨⟨s.rows.map (fun r => if sh.ID r = sh.ID x then x else r), s.seq⟩, x, ?_, rfl⟩
    simp only [memDB, memSave, hany, if_true]
  Delete_ok := by
    intro s id s' h
    simp only [memDB, memDelete, Prod.mk.injEq, and_true] at h
    subst h
    rfl

/-! ## The runs of the engine, case by case -/

theorem Update_saved {σ α : Type} (rt : RegisteredType σ α) (id : Nat) (v : Decoder α)
    (w : World σ α) (s1 s2 : σ) (r r1 x : α) (e : Option GoError)
    (hF : rt.DB.First w.db rt.Typ.zero id = (s1, r, none))
    (hD : v.Decode r = (r1, none))
    (hS : rt.DB.Save s1 r1 = (s2, x, e)) :
    rt.Update id v w = (http.StatusOK, (w.ran (Call.First id) s1).ran (Call.Save r1) s2) := by
  simp [RegisteredType.Update, hF, hD, World.ran, hS]

/-! ## C1: an update overlays the payload on the stored record -/

/-- The runs of `Update` in which the store does its part.  On a store that
meets the store contract, so that the merge-write of a held identifier
succeeds, and holds a record `r` under `id`, with a decoder that always
succeeds, sets the field `A` to `x` and leaves every other field of the record
it is given as it is (the identifier field `idF` being one of those): `Update`
returns 200; the record then held under `id` has `A = x`, every other field as
in `r`, and identifier `id`; and a second run of the same `Update` returns 200
and leaves the rows of the store as the first one left them. -/
theorem Update_overlays_payload {σ α F V : Type} (rt : RegisteredType σ α)
    (rows : σ → List α) (hdb : Relational rt.Typ rt.DB rows)
    (fld : α → F → V) (hext : ∀ a b, (∀ f, fld a f = fld b f) → a = b)
    (idF : F) (hidF : ∀ a b, fld a idF = fld b idF → rt.Typ.ID a = rt.Typ.ID b)
    (v : Decoder α) (A : F) (x : V) (hA : idF ≠ A)
    (hok : ∀ t, (v.Decode t).2 = none)
    (hset : ∀ t, fld (v.Decode t).1 A = x)
    (hkeep : ∀ t f, f ≠ A → fld (v.Decode t).1 f = fld t f)
    (w : World σ α) (id : Nat) (r : α) (hr : held rt.Typ (rows w.db) id = some r) :
    (rt.Update id v w).1 = http.StatusOK ∧
    (∃ r', held rt.Typ (rows (rt.Update id v w).2.db) id = some r' ∧
      fld r' A = x ∧ (∀ f, f ≠ A → fld r' f = fld r f) ∧ rt.Typ.ID r' = id) ∧
    (rt.Update id v (rt.Update id v w).2).1 = http.StatusOK ∧
    rows (rt.Update id v (rt.Update id v w).2).2.db = rows (rt.Update id v w).2.db := by
  unfold held at hr
  obtain ⟨hmem, hrid⟩ := find_ID rt.Typ _ id r hr
  -- the first run
  obtain ⟨s1, hF, hrows1⟩ := hdb.First_found w.db rt.Typ.zero id r hr
  have hD : v.Decode r = ((v.Decode r).1, none) := Prod.ext rfl (hok r)
  have hid1 : rt.Typ.ID (v.Decode r).1 = id := by
    rw [hidF _ r (hkeep r idF hA), hrid]
  obtain ⟨s2, x2, hS, hrows2⟩ := hdb.Save_held s1 (v.Decode r).1
    ⟨r, by rw [hrows1]; exact hmem, by rw [hid1, hrid]⟩
  have h1 := Update_saved rt id v w s1 s2 r (v.Decode r).1 x2 none hF hD hS
  have hheld : (rows s2).find? (fun y => rt.Typ.ID y == id) = some (v.Decode r).1 := by
    rw [hrows2, hrows1, hid1]
    have := find_map_overwrite rt.Typ (rows w.db) (v.Decode r).1 r (by rw [hid1]; exact hr)
    rw [hid1] at this
    exact this
  -- the second run
  obtain ⟨s3, hF', hrows3⟩ := hdb.First_found s2 rt.Typ.zero id _ hheld
  have hsame : (v.Decode (v.Decode r).1).1 = (v.Decode r).1 := by
    apply hext
    intro f
    by_cases hf : f = A
    · subst hf
      rw [hset, hset]
    · rw [hkeep _ f hf]
  have hD' : v.Decode (v.Decode r).1 = ((v.Decode r).1, none) :=
    Prod.ext hsame (hok _)
  obtain ⟨s4, x4, hS', hrows4⟩ := hdb.Save_held s3 (v.Decode r).1
    ⟨(v.Decode r).1, by rw [hrows3]; exact (find_ID rt.Typ _ id _ hheld).1, rfl⟩
  have h2 := Update_saved rt id v
    ((w.ran (Call.First id) s1).ran (Call.Save (v.Decode r).1) s2) s3 s4
    (v.Decode r).1 (v.Decode r).1 x4 none hF' hD' hS'
  rw [h1, h2]
  refine ⟨rfl, ⟨(v.Decode r).1, hheld, hset r, fun f hf => hkeep r f hf, hid1⟩, rfl, ?_⟩
  show rows s4 = rows s2
  rw [hrows4, hrows3, hrows2, map_overwrite_twice]

/-- The overlay at the test suite's input: the store holds
`{ID:1,String:"test",Int:5}`, the payload is `{"Int": 10}`, and the
merge-write succeeds. -/
theorem Update_overlays_payload_at_seed :
    held TestShape seedTable.rows 1 = some seedRecord ∧
    ((memType TestShape).Update 1 (jsonDecoder (some intTen)) (World.start seedTable)).1
      = http.StatusOK ∧
    (∃ r', held TestShape (((memType TestShape).Update 1 (jsonDecoder (some intTen))
        (World.start seedTable)).2.db).rows 1 = some r' ∧
      r'.field TestField.Int = TestValue.int 10 ∧
      (∀ f, f ≠ TestField.Int → r'.field f = seedRecord.field f) ∧ r'.ID = 1) ∧
    ((memType TestShape).Update 1 (jsonDecoder (some intTen))
      ((memType TestShape).Update 1 (jsonDecoder (some intTen))
        (World.start seedTable)).2).1 = http.StatusOK ∧
    (((memType TestShape).Update 1 (jsonDecoder (some intTen))
      ((memType TestShape).Update 1 (jsonDecoder (some intTen))
        (World.start seedTable)).2).2.db).rows =
    (((memType TestShape).Update 1 (jsonDecoder (some intTen))
      (World.start seedTable)).2.db).rows :=
  ⟨by decide,
   Update_overlays_payload (memType TestShape) Table.rows (memDB_relational TestShape)
    TestType.field
    (by
      intro a b h
      have h1 := h TestField.ID
      have h2 := h TestField.String
      have h3 := h TestField.Int
      cases a
      cases b
      simp only [TestType.field, TestValue.uint.injEq, TestValue.string.injEq,
        TestValue.int.injEq] at h1 h2 h3
      simp [h1, h2, h3])
    TestField.ID
    (by
      intro a b h
      simpa [TestType.field] using h)
    (jsonDecoder (some intTen)) TestField.Int (TestValue.int 10) (by decide)
    (fun _ => rfl) (fun _ => rfl)
    (by
      intro t f hf
      cases f
      · rfl
      · rfl
      · exact absurd rfl hf)
    (World.start seedTable) 1 seedRecord (by decide)⟩

/-- C1. The store holds `{ID:1,String:"test",Int:5}` under identifier 1 and
refuses the merge-write; the payload `{"Int": 10}` carries the one field `Int`
and its decoder sets that field and keeps the others.  `Update(1, payload)`
returns 200, yet the record held under 1 is still the old one, with `Int = 5`
and not 10: the update reports success for a write that did not happen. -/
theorem Update_ok_without_write :
    held TestShape seedTable.rows 1 = some seedRecord ∧
    (jsonDecoder (some intTen)).Decode seedRecord = (⟨1, "test", 10⟩, none) ∧
    (lockedType.Update 1 (jsonDecoder (some intTen)) (World.start seedTable)).1
      = http.StatusOK ∧
    held TestShape
      (lockedType.Update 1 (jsonDecoder (some intTen)) (World.start seedTable)).2.db.rows 1
      = some seedRecord ∧
    seedRecord.field TestField.Int = TestValue.int 5 ∧
    seedRecord.field TestField.Int ≠ TestValue.int 10 := by
  decide

/-! ## C2: operations on an identifier no record carries -/

/-- On a store that meets the store contract, `Read` of an identifier no
record carries returns no value and 404. -/
theorem Read_absent {σ α : Type} (rt : RegisteredType σ α) (rows : σ → List α)
    (hdb : Relational rt.Typ rt.DB rows) (w : World σ α) (id : Nat)
    (h : held rt.Typ (rows w.db) id = none) :
    (rt.Read id w).1 = none ∧ (rt.Read id w).2.1 = http.StatusNotFound := by
  obtain ⟨s1, x, e, hF, he, _⟩ := hdb.First_absent w.db rt.Typ.zero id h
  simp [RegisteredType.Read, hF, he]

/-- On a store that meets the store contract, `Update` of an identifier no
record carries returns 404, whatever the payload. -/
theorem Update_absent {σ α : Type} (rt : RegisteredType σ α) (rows : σ → List α)
    (hdb : Relational rt.Typ rt.DB rows) (w : World σ α) (id : Nat) (v : Decoder α)
    (h : held rt.Typ (rows w.db) id = none) :
    (rt.Update id v w).1 = http.StatusNotFound := by
  obtain ⟨s1, x, e, hF, he, _⟩ := hdb.First_absent w.db rt.Typ.zero id h
  simp [RegisteredType.Update, hF, he]

/-- The status of `Delete` is read off the error of the store's delete and
nothing else: 200 exactly when the store reports no error, 404 exactly when it
reports an error that is the "no rows" error. -/
theorem Delete_status {σ α : Type} (rt : RegisteredType σ α) (id : Nat) (w : World σ α) :
    ((rt.Delete id w).1 = http.StatusOK ↔ (rt.DB.Delete w.db id).2 = none) ∧
    ((rt.Delete id w).1 = http.StatusNotFound ↔
      ∃ e, (rt.DB.Delete w.db id).2 = some e ∧ e.IsRecordNotFound = true) := by
  rcases hdel : rt.DB.Delete w.db id with ⟨s', e⟩
  cases e with
  | none => simp [RegisteredType.Delete, hdel]
  | some err =>
    by_cases he : err.IsRecordNotFound = true <;> simp [RegisteredType.Delete, hdel, he]

/-- C2. The store holds the one record of identifier 1.  On identifier 2, which
no record carries, `Read` returns no value and 404 and `Update` returns 404,
but `Delete` returns 200: the store removes no row and reports no error, so
the engine has nothing to map to 404. -/
theorem Delete_absent_reports_ok :
    held TestShape seedTable.rows 2 = none ∧
    ((memType TestShape).Read 2 (World.start seedTable)).1 = none ∧
    ((memType TestShape).Read 2 (World.start seedTable)).2.1 = http.StatusNotFound ∧
    ((memType TestShape).Update 2 (jsonDecoder (some intTen)) (World.start seedTable)).1
      = http.StatusNotFound ∧
    ((memType TestShape).Delete 2 (World.start seedTable)).1 = http.StatusOK ∧
    ((memType TestShape).Delete 2 (World.start seedTable)).2.log = [] := by
  decide

/-! ## C3: the page `List` returns -/

theorem wrapInt_of_fits (x : Int) (h1 : -(2 ^ 63) ≤ x) (h2 : x < 2 ^ 63) : wrapInt x = x := by
  unfold wrapInt
  omega

theorem window_eq_enginePage {α : Type} (page limit : Int) (xs : List α) :
    window (if page > 0 then some (mulInt page limit) else none)
      (if limit > 0 then some limit else none) xs = enginePage page limit xs := by
  unfold window enginePage
  by_cases hp : page > 0 <;> by_cases hl : limit > 0 <;> simp [hp, hl] <;> omega

theorem List_found {σ α : Type} (rt : RegisteredType σ α) (page limit : Int)
    (w : World σ α) (s1 s2 : σ) (n : Int) (xs : Slice α)
    (hC : rt.DB.Count w.db = (s1, n, none))
    (hF : rt.DB.Find s1 (if page > 0 then some (mulInt page limit) else none)
      (if limit > 0 then some limit else none) = (s2, xs, none)) :
    rt.List page limit w = (some ⟨page, limit, n, xs⟩, http.StatusOK,
      (w.ran Call.Count s1).ran (Call.Find (if page > 0 then some (mulInt page limit) else none)
        (if limit > 0 then some limit else none)) s2) := by
  simp [RegisteredType.List, hC, World.ran, hF]

/-- C3, as amended.  On a store that meets the store contract and holds the
record sequence `rows w.db`, when the count and the query succeed, `List`
returns 200 and the envelope with the given `page` and `limit`, `Total` the
number of records, and `Data` the sequence with the first `page * limit`
records skipped exactly when `page > 0` and cut to `limit` records exactly
when `limit > 0`, where the product is computed on Go's `int`; that is the
product of the integers whenever it fits in 64 bits.  In particular
`List(0, 0)` returns every record, `List(1, k)` for an `int` `k > 0` skips `k`
records and returns at most `k`, and a page other than 0 with limit 0 returns
every record. -/
theorem List_page {σ α : Type} (rt : RegisteredType σ α) (rows : σ → List α)
    (hdb : Relational rt.Typ rt.DB rows) (page limit : Int) (w : World σ α)
    (s1 s2 : σ) (n : Int) (xs : Slice α)
    (hC : rt.DB.Count w.db = (s1, n, none))
    (hF : rt.DB.Find s1 (if page > 0 then some (mulInt page limit) else none)
      (if limit > 0 then some limit else none) = (s2, xs, none)) :
    (rt.List page limit w).2.1 = http.StatusOK ∧
    (rt.List page limit w).1 =
      some ⟨page, limit, ((rows w.db).length : Int), enginePage page limit (rows w.db)⟩ ∧
    (-(2 ^ 63) ≤ page * limit → page * limit < 2 ^ 63 →
      enginePage page limit (rows w.db) = specPage page limit (rows w.db)) ∧
    (page = 0 → limit = 0 → enginePage page limit (rows w.db) = rows w.db) ∧
    (page = 1 → 0 < limit → limit < 2 ^ 63 →
      enginePage page limit (rows w.db) = ((rows w.db).drop limit.toNat).take limit.toNat) ∧
    (page ≠ 0 → limit = 0 → enginePage page limit (rows w.db) = rows w.db) := by
  obtain ⟨hn, hrows1⟩ := hdb.Count_ok w.db s1 n hC
  obtain ⟨hxs, _⟩ := hdb.Find_ok s1 _ _ s2 xs hF
  rw [List_found rt page limit w s1 s2 n xs hC hF]
  refine ⟨rfl, ?_, ?_, ?_, ?_, ?_⟩
  · rw [hxs, hn, hrows1, window_eq_enginePage]
  · intro h1 h2
    simp only [enginePage, specPage, mulInt, wrapInt_of_fits _ h1 h2]
  · intro hp hl
    simp [enginePage, hp, hl]
  · intro hp hl1 hl2
    subst hp
    have hm : mulInt 1 limit = limit := by
      rw [mulInt, one_mul]
      exact wrapInt_of_fits _ (by omega) hl2
    simp [enginePage, hl1, hm]
  · intro hp hl
    subst hl
    have hm : mulInt page 0 = 0 := by
      rw [mulInt, mul_zero]
      exact wrapInt_of_fits _ (by omega) (by omega)
    simp [enginePage, hm]

/-- C3, as amended, on the one-record store of the test suite: `List(1, 1)`
skips the record and reports a total of 1. -/
theorem List_page_at_seed :
    ((memType TestShape).List 1 1 (World.start seedTable)).2.1 = http.StatusOK ∧
    ((memType TestShape).List 1 1 (World.start seedTable)).1 =
      some ⟨1, 1, 1, enginePage 1 1 seedTable.rows⟩ ∧
    enginePage 1 1 seedTable.rows = ([] : List TestType) :=
  ⟨(List_page (memType TestShape) Table.rows (memDB_relational TestShape) 1 1
      (World.start seedTable) seedTable seedTable 1 (window (some 1) (some 1) seedTable.rows)
      rfl rfl).1,
   (List_page (memType TestShape) Table.rows (memDB_relational TestShape) 1 1
      (World.start seedTable) seedTable seedTable 1 (window (some 1) (some 1) seedTable.rows)
      rfl rfl).2.1,
   by decide⟩

/-- C3 as stated fails where `page * limit` leaves the range of `int`: with
`page = limit = 2^32` the product is `2^64`, so every record should be skipped,
but the engine computes the offset 0 and returns the one record the store
holds. -/
theorem List_offset_wraps :
    mulInt (2 ^ 32) (2 ^ 32) = 0 ∧
    specPage (2 ^ 32) (2 ^ 32) seedTable.rows = [] ∧
    ((memType TestShape).List (2 ^ 32) (2 ^ 32) (World.start seedTable)).1 =
      some ⟨2 ^ 32, 2 ^ 32, 1, [seedRecord]⟩ ∧
    ((memType TestShape).List (2 ^ 32) (2 ^ 32) (World.start seedTable)).1 ≠
      some ⟨2 ^ 32, 2 ^ 32, 1, specPage (2 ^ 32) (2 ^ 32) seedTable.rows⟩ := by
  decide

/-! ## C4 and C5: reading after a create and after a delete -/

theorem find_append_fresh {α : Type} (sh : Shape α) (xs : List α) (y : α)
    (h : ∀ r ∈ xs, sh.ID r ≠ sh.ID y) :
    (xs ++ [y]).find? (fun x => sh.ID x == sh.ID y) = some y := by
  induction xs with
  | nil => simp
  | cons a as ih =>
    have ha : sh.ID a ≠ sh.ID y := h a (List.mem_cons_self a as)
    have := ih (fun r hr => h r (List.mem_cons_of_mem a hr))
    simp [List.find?_cons, ha, this]

/-- C4. On a store that meets the store contract, when the payload decodes
into the record `x` and the insert of `x` succeeds, leaving the record `x'`
with its identifier: `Create` returns 200, and `Read` of that identifier on the
world `Create` leaves returns 200 with a record whose `ID` is that identifier
and which is `x` with that identifier set, so that every field that does not
depend on the identifier has the value the payload gave it. -/
theorem Create_then_Read {σ α : Type} (rt : RegisteredType σ α) (rows : σ → List α)
    (hdb : Relational rt.Typ rt.DB rows) (v : Decoder α) (w : World σ α)
    (x x' : α) (s' : σ)
    (hD : v.Decode rt.Typ.zero = (x, none))
    (hC : rt.DB.Create w.db x = (s', x', none)) :
    (rt.Create v w).1 = http.StatusOK ∧
    (rt.Read (rt.Typ.ID x') (rt.Create v w).2).2.1 = http.StatusOK ∧
    ∃ r, (rt.Read (rt.Typ.ID x') (rt.Create v w).2).1 = some r ∧
      rt.Typ.ID r = rt.Typ.ID x' ∧ r = rt.Typ.setID x (rt.Typ.ID x') ∧
      ∀ (β : Type) (f : α → β), (∀ a n, f (rt.Typ.setID a n) = f a) → f r = f x := by
  obtain ⟨hrows, hx', hfresh⟩ := hdb.Create_ok w.db x s' x' hC
  have hcreate : rt.Create v w = (http.StatusOK, w.ran (Call.Create x) s') := by
    simp [RegisteredType.Create, hD, hC]
  have hfind : (rows s').find? (fun y => rt.Typ.ID y == rt.Typ.ID x') = some x' := by
    rw [hrows]
    exact find_append_fresh rt.Typ _ x' hfresh
  obtain ⟨s2, hF, _⟩ := hdb.First_found s' rt.Typ.zero (rt.Typ.ID x') x' hfind
  have hread : rt.Read (rt.Typ.ID x') (w.ran (Call.Create x) s') =
      (some x', http.StatusOK, (w.ran (Call.Create x) s').ran (Call.First (rt.Typ.ID x')) s2) := by
    simp [RegisteredType.Read, World.ran, hF]
  rw [hcreate]
  dsimp only
  rw [hread]
  refine ⟨rfl, rfl, x', rfl, rfl, hx', ?_⟩
  intro β f hf
  rw [hx', hf]

/-- C4 at the test suite's input: the body `{"String": "test", "Int": 5}` on the
empty store is assigned identifier 1 and read back. -/
theorem Create_then_Read_at_seed :
    ((memType TestShape).Create (jsonDecoder (some seedBody)) (World.start ⟨[], 0⟩)).1
      = http.StatusOK ∧
    ((memType TestShape).Read 1 ((memType TestShape).Create (jsonDecoder (some seedBody))
      (World.start ⟨[], 0⟩)).2).2.1 = http.StatusOK ∧
    ∃ r, ((memType TestShape).Read 1 ((memType TestShape).Create (jsonDecoder (some seedBody))
        (World.start ⟨[], 0⟩)).2).1 = some r ∧
      r.ID = 1 ∧ r = ⟨1, "test", 5⟩ ∧
      ∀ (β : Type) (f : TestType → β), (∀ a n, f (TestShape.setID a n) = f a) →
        f r = f ⟨0, "test", 5⟩ :=
  Create_then_Read (memType TestShape) Table.rows (memDB_relational TestShape)
    (jsonDecoder (some seedBody)) (World.start ⟨[], 0⟩) ⟨0, "test", 5⟩ seedRecord
    seedTable rfl rfl

/-- C5. On a store that meets the store contract, if `Delete(id)` returns 200
then `Read(id)` on the world `Delete` leaves returns no value and 404. -/
theorem Delete_then_Read_not_found {σ α : Type} (rt : RegisteredType σ α)
    (rows : σ → List α) (hdb : Relational rt.Typ rt.DB rows) (w : World σ α) (id : Nat)
    (h : (rt.Delete id w).1 = http.StatusOK) :
    (rt.Read id (rt.Delete id w).2).1 = none ∧
    (rt.Read id (rt.Delete id w).2).2.1 = http.StatusNotFound := by
  rcases hdel : rt.DB.Delete w.db id with ⟨s', e⟩
  cases e with
  | some err =>
    exfalso
    by_cases he : err.IsRecordNotFound = true <;>
      simp [RegisteredType.Delete, hdel, he] at h
  | none =>
    have hD : rt.Delete id w = (http.StatusOK, w.ran (Call.Delete id) s') := by
      simp [RegisteredType.Delete, hdel]
    rw [hD]
    apply Read_absent rt rows hdb
    show held rt.Typ (rows s') id = none
    rw [hdb.Delete_ok w.db id s' hdel]
    exact find_filter_ne rt.Typ _ id

/-- C5 at the test suite's input: the record of identifier 1 is deleted and
then read. -/
theorem Delete_then_Read_at_seed :
    ((memType TestShape).Delete 1 (World.start seedTable)).1 = http.StatusOK ∧
    ((memType TestShape).Read 1 ((memType TestShape).Delete 1 (World.start seedTable)).2).1
      = none ∧
    ((memType TestShape).Read 1 ((memType TestShape).Delete 1
      (World.start seedTable)).2).2.1 = http.StatusNotFound :=
  ⟨by decide,
   Delete_then_Read_not_found (memType TestShape) Table.rows (memDB_relational TestShape)
    (World.start seedTable) 1 (by decide)⟩

/-! ## C6: failures and the log -/

/-- C6. On a store that holds `{ID:1,String:"test",Int:5}` and refuses the
merge-write, `Update(1, {"Int": 10})` issues the look-up and the merge-write,
the merge-write fails, and yet `Update` returns 200, logs nothing and leaves
the record as it was. -/
theorem Update_Save_failure_unlogged :
    lockedType.DB.Save seedTable ⟨1, "test", 10⟩ =
      (seedTable, ⟨1, "test", 10⟩, some (GoError.msg "database is locked")) ∧
    (lockedType.Update 1 (jsonDecoder (some intTen)) (World.start seedTable)).1
      = http.StatusOK ∧
    (lockedType.Update 1 (jsonDecoder (some intTen)) (World.start seedTable)).2.log = [] ∧
    (lockedType.Update 1 (jsonDecoder (some intTen)) (World.start seedTable)).2.calls
      = [Call.First 1, Call.Save ⟨1, "test", 10⟩] ∧
    (lockedType.Update 1 (jsonDecoder (some intTen)) (World.start seedTable)).2.db
      = seedTable := by
  decide

/-! ## C7: the failures of `List` -/

/-- C7, as amended.  When the count fails, with whatever error, `List` returns
no value and 500; when the count succeeds and the query fails, `List` returns
no value and 404 if the error is the "no rows" error, 500 otherwise.  In both
cases the error is logged once. -/
theorem List_failure_status {σ α : Type} (rt : RegisteredType σ α) (page limit : Int)
    (w : World σ α) :
    (∀ s1 n e, rt.DB.Count w.db = (s1, n, some e) →
      (rt.List page limit w).1 = none ∧
      (rt.List page limit w).2.1 = http.StatusInternalServerError ∧
      (rt.List page limit w).2.2.log = w.log ++ [e]) ∧
    (∀ s1 n s2 xs e, rt.DB.Count w.db = (s1, n, none) →
      rt.DB.Find s1 (if page > 0 then some (mulInt page limit) else none)
        (if limit > 0 then some limit else none) = (s2, xs, some e) →
      (rt.List page limit w).1 = none ∧
      (rt.List page limit w).2.1 =
        (if e.IsRecordNotFound then http.StatusNotFound
          else http.StatusInternalServerError) ∧
      (rt.List page limit w).2.2.log = w.log ++ [e]) := by
  constructor
  · intro s1 n e hC
    simp [RegisteredType.List, hC, World.Println, World.ran]
  · intro s1 n s2 xs e hC hF
    by_cases he : e.IsRecordNotFound = true <;>
      simp [RegisteredType.List, hC, hF, he, World.Println, World.ran]

/-- C7, as amended, on the store whose count fails with the "no rows"
error. -/
theorem List_failure_status_at_seed :
    (countlessType.List 0 0 (World.start seedTable)).1 = none ∧
    (countlessType.List 0 0 (World.start seedTable)).2.1 = http.StatusInternalServerError ∧
    (countlessType.List 0 0 (World.start seedTable)).2.2.log = [GoError.ErrRecordNotFound] :=
  (List_failure_status countlessType 0 0 (World.start seedTable)).1
    seedTable 0 GoError.ErrRecordNotFound rfl

/-- C7 as stated fails on the count: a count that fails with the "no rows"
error makes `List` return 500, where `Read` returns 404 for the same error of
its look-up. -/
theorem List_count_not_found_is_500 :
    GoError.ErrRecordNotFound.IsRecordNotFound = true ∧
    countlessType.DB.Count seedTable = (seedTable, 0, some GoError.ErrRecordNotFound) ∧
    (countlessType.List 0 0 (World.start seedTable)).1 = none ∧
    (countlessType.List 0 0 (World.start seedTable)).2.1 = http.StatusInternalServerError ∧
    (countlessType.List 0 0 (World.start seedTable)).2.1 ≠ http.StatusNotFound ∧
    (countlessType.Read 2 (World.start seedTable)).2.1 = http.StatusNotFound := by
  decide

/-! ## C8: the list endpoint of the adapters -/

/-- The route of the gorilla list endpoint captures no variable: on a match,
`mux.Vars` is empty. -/
theorem Match_ListRoute (path ps : List String) (vars : List (String × String))
    (h : gorilla.Match (gorilla.ListRoute path) ps = some vars) : vars = [] := by
  induction path generalizing ps with
  | nil =>
    cases ps with
    | nil => simpa [gorilla.ListRoute, gorilla.Match] using h.symm
    | cons p ps => simp [gorilla.ListRoute, gorilla.Match] at h
  | cons a as ih =>
    cases ps with
    | nil => simp [gorilla.ListRoute, gorilla.Match] at h
    | cons p ps =>
      simp only [gorilla.ListRoute, List.map_cons, gorilla.Match] at h
      split_ifs at h
      exact ih ps h

/-- Whatever the request, the gorilla list endpoint calls the engine's `List`
with page 0 and limit 0. -/
theorem gorilla_ServeList_zero {σ α : Type} (rt : RegisteredType σ α)
    (desiredEndpoints : EndpointTypes) (path : List String) (r : Request) (w : World σ α)
    (res : Response α × World σ α)
    (h : gorilla.ServeList rt desiredEndpoints path r w = some res) :
    res = respondList rt 0 0 w := by
  unfold gorilla.ServeList at h
  split_ifs at h
  split at h
  · rename_i vars hm
    have hv := Match_ListRoute path r.Path vars hm
    subst hv
    simpa [gorilla.ListHandler, gorilla.ListParams] using h.symm
  · simp at h

/-- C8. With every endpoint mounted at `/test` on the one-record store, the
request `GET /test?page=1&limit=2` matches the gorilla list route with no route
variable, so the gorilla handler calls `List(0, 0)`: the store is queried
without offset or limit and the answer is page 0, limit 0 and the whole table.
The vanilla handler reads the same request as page 1 and limit 2 and answers
with page 1, limit 2 and an empty page. -/
theorem gorilla_list_ignores_query :
    gorilla.Match (gorilla.ListRoute ["test"]) pageRequest.Path = some [] ∧
    gorilla.ListParams [] = Except.ok (0, 0) ∧
    (gorilla.ServeList (memType TestShape) EndpointTypeAll ["test"] pageRequest
        (World.start seedTable)).map (fun res => (res.1, res.2.calls)) =
      some (⟨http.StatusOK, some ⟨0, 0, 1, [seedRecord]⟩⟩,
        [Call.Count, Call.Find none none]) ∧
    vanilla.ListParams pageRequest = Except.ok (1, 2) ∧
    (vanilla.ServeList (memType TestShape) EndpointTypeAll ["test"] pageRequest
        (World.start seedTable)).map (fun res => (res.1, res.2.calls)) =
      some (⟨http.StatusOK, some ⟨1, 2, 1, []⟩⟩,
        [Call.Count, Call.Find (some 2) (some 2)]) :=
  ⟨by decide, rfl, by decide, rfl, by decide⟩

/-! ## C9: the statuses of `Create` -/

/-- C9. `Create` returns 400 exactly when the decoder fails, and then the
store is left as it was and no store operation is issued; it returns 500
exactly when the decoder succeeds and the insert fails, and 200 exactly when
both succeed; whenever the decoder succeeds, exactly one store operation is
issued, the insert of the decoded record. -/
theorem Create_status {σ α : Type} (rt : RegisteredType σ α) (v : Decoder α)
    (w : World σ α) :
    ((rt.Create v w).1 = http.StatusBadRequest ↔ (v.Decode rt.Typ.zero).2 ≠ none) ∧
    ((v.Decode rt.Typ.zero).2 ≠ none →
      (rt.Create v w).2.calls = w.calls ∧ (rt.Create v w).2.db = w.db) ∧
    ((rt.Create v w).1 = http.StatusInternalServerError ↔
      (v.Decode rt.Typ.zero).2 = none ∧
      (rt.DB.Create w.db (v.Decode rt.Typ.zero).1).2.2 ≠ none) ∧
    ((rt.Create v w).1 = http.StatusOK ↔
      (v.Decode rt.Typ.zero).2 = none ∧
      (rt.DB.Create w.db (v.Decode rt.Typ.zero).1).2.2 = none) ∧
    ((v.Decode rt.Typ.zero).2 = none →
      (rt.Create v w).2.calls = w.calls ++ [Call.Create (v.Decode rt.Typ.zero).1] ∧
      (rt.Create v w).2.db = (rt.DB.Create w.db (v.Decode rt.Typ.zero).1).1) := by
  rcases hD : v.Decode rt.Typ.zero with ⟨x, e⟩
  cases e with
  | some err => simp [RegisteredType.Create, hD, World.Println]
  | none =>
    rcases hC : rt.DB.Create w.db x with ⟨s', x', e'⟩
    cases e' with
    | some err => simp [RegisteredType.Create, hD, hC, World.Println, World.ran]
    | none => simp [RegisteredType.Create, hD, hC, World.ran]

/-- C9 at the test suite's input, and at a body that is not JSON. -/
theorem Create_status_at_seed :
    ((memType TestShape).Create (jsonDecoder (some seedBody)) (World.start ⟨[], 0⟩)).1
      = http.StatusOK ∧
    ((memType TestShape).Create (jsonDecoder (some seedBody)) (World.start ⟨[], 0⟩)).2.calls
      = [Call.Create ⟨0, "test", 5⟩] ∧
    ((memType TestShape).Create (jsonDecoder none) (World.start seedTable)).1
      = http.StatusBadRequest ∧
    ((memType TestShape).Create (jsonDecoder none) (World.start seedTable)).2.calls = [] :=
  ⟨(Create_status (memType TestShape) (jsonDecoder (some seedBody))
      (World.start ⟨[], 0⟩)).2.2.2.1.2 ⟨rfl, rfl⟩,
   ((Create_status (memType TestShape) (jsonDecoder (some seedBody))
      (World.start ⟨[], 0⟩)).2.2.2.2 rfl).1,
   (Create_status (memType TestShape) (jsonDecoder none) (World.start seedTable)).1.2
      (by decide),
   ((Create_status (memType TestShape) (jsonDecoder none) (World.start seedTable)).2.1
      (by decide)).1⟩

/-! ## C10: `Update` with a payload that does not decode -/

/-- C10, as amended.  When the look-up of `Update` succeeds and the payload
fails to decode, `Update` returns 400, the error is logged once, and the
look-up is the only store operation issued: nothing is written, and the store
is left in the state the look-up left it in. -/
theorem Update_decode_failure {σ α : Type} (rt : RegisteredType σ α) (id : Nat)
    (v : Decoder α) (w : World σ α) (s1 : σ) (r r1 : α) (e : GoError)
    (hF : rt.DB.First w.db rt.Typ.zero id = (s1, r, none))
    (hD : v.Decode r = (r1, some e)) :
    (rt.Update id v w).1 = http.StatusBadRequest ∧
    (rt.Update id v w).2.calls = w.calls ++ [Call.First id] ∧
    (rt.Update id v w).2.db = s1 ∧
    (rt.Update id v w).2.log = w.log ++ [e] := by
  simp [RegisteredType.Update, hF, hD, World.Println, World.ran]

/-- C10, as amended, on the one-record store with a body that is not JSON. -/
theorem Update_decode_failure_at_seed :
    ((memType TestShape).Update 1 (jsonDecoder none) (World.start seedTable)).1
      = http.StatusBadRequest ∧
    ((memType TestShape).Update 1 (jsonDecoder none) (World.start seedTable)).2.calls
      = [Call.First 1] ∧
    ((memType TestShape).Update 1 (jsonDecoder none) (World.start seedTable)).2.db
      = seedTable ∧
    ((memType TestShape).Update 1 (jsonDecoder none) (World.start seedTable)).2.log
      = [GoError.msg "invalid character"] :=
  Update_decode_failure (memType TestShape) 1 (jsonDecoder none) (World.start seedTable)
    seedTable seedRecord seedRecord (GoError.msg "invalid character") rfl rfl

/-- C10 as stated fails twice over.  With a body that is not JSON, `Update(1)`
on the one-record store issues a store operation, the look-up, before the
decoder is called; and `Update(2)`, on an identifier no record carries, returns
404 instead of 400, the decoder never being called. -/
theorem Update_decodes_after_lookup :
    ((jsonDecoder none).Decode seedRecord).2 ≠ none ∧
    ((memType TestShape).Update 1 (jsonDecoder none) (World.start seedTable)).2.calls
      = [Call.First 1] ∧
    ((memType TestShape).Update 1 (jsonDecoder none) (World.start seedTable)).2.calls ≠ [] ∧
    ((memType TestShape).Update 2 (jsonDecoder none) (World.start seedTable)).1
      = http.StatusNotFound ∧
    ((memType TestShape).Update 2 (jsonDecoder none) (World.start seedTable)).1
      ≠ http.StatusBadRequest := by
  decide

/-! ## C11: the statuses and values the engine returns -/

/-- The four statuses of the engine. -/
theorem status_cases (c : Nat) :
    (c = http.StatusOK ∨ c = http.StatusBadRequest ∨ c = http.StatusNotFound ∨
      c = http.StatusInternalServerError) ↔ c ∈ [200, 400, 404, 500] := by
  simp

/-- C11. Whatever the input, the decoder and the store do, each of `Create`,
`Read`, `List`, `Update` and `Delete` returns one of the statuses 200, 400, 404
and 500; and `Read` and `List` return a value exactly when the status they
return is 200. -/
theorem status_and_value {σ α : Type} (rt : RegisteredType σ α) (v : Decoder α)
    (id : Nat) (page limit : Int) (w : World σ α) :
    (rt.Create v w).1 ∈ [200, 400, 404, 500] ∧
    (rt.Read id w).2.1 ∈ [200, 400, 404, 500] ∧
    (rt.List page limit w).2.1 ∈ [200, 400, 404, 500] ∧
    (rt.Update id v w).1 ∈ [200, 400, 404, 500] ∧
    (rt.Delete id w).1 ∈ [200, 400, 404, 500] ∧
    ((rt.Read id w).1 ≠ none ↔ (rt.Read id w).2.1 = http.StatusOK) ∧
    ((rt.List page limit w).1 ≠ none ↔ (rt.List page limit w).2.1 = http.StatusOK) := by
  refine ⟨?_, ?_, ?_, ?_, ?_, ?_, ?_⟩
  · rcases hD : v.Decode rt.Typ.zero with ⟨x, e⟩
    cases e with
    | some err => simp [RegisteredType.Create, hD]
    | none =>
      rcases hC : rt.DB.Create w.db x with ⟨s', x', e'⟩
      cases e' <;> simp [RegisteredType.Create, hD, hC]
  · rcases hF : rt.DB.First w.db rt.Typ.zero id with ⟨s', x, e⟩
    cases e with
    | none => simp [RegisteredType.Read, hF]
    | some err =>
      by_cases he : err.IsRecordNotFound = true <;> simp [RegisteredType.Read, hF, he]
  · rcases hC : rt.DB.Count w.db with ⟨s1, n, e⟩
    cases e with
    | some err => simp [RegisteredType.List, hC]
    | none =>
      rcases hF : rt.DB.Find s1 (if page > 0 then some (mulInt page limit) else none)
        (if limit > 0 then some limit else none) with ⟨s2, xs, e'⟩
      cases e' with
      | none => simp [RegisteredType.List, hC, World.ran, hF]
      | some err =>
        by_cases he : err.IsRecordNotFound = true <;>
          simp [RegisteredType.List, hC, World.ran, hF, he]
  · rcases hF : rt.DB.First w.db rt.Typ.zero id with ⟨s', x, e⟩
    cases e with
    | some err =>
      by_cases he : err.IsRecordNotFound = true <;> simp [RegisteredType.Update, hF, he]
    | none =>
      rcases hD : v.Decode x with ⟨x1, e1⟩
      cases e1 <;> simp [RegisteredType.Update, hF, hD]
  · rcases hdel : rt.DB.Delete w.db id with ⟨s', e⟩
    cases e with
    | none => simp [RegisteredType.Delete, hdel]
    | some err =>
      by_cases he : err.IsRecordNotFound = true <;> simp [RegisteredType.Delete, hdel, he]
  · rcases hF : rt.DB.First w.db rt.Typ.zero id with ⟨s', x, e⟩
    cases e with
    | none => simp [RegisteredType.Read, hF]
    | some err =>
      by_cases he : err.IsRecordNotFound = true <;> simp [RegisteredType.Read, hF, he]
  · rcases hC : rt.DB.Count w.db with ⟨s1, n, e⟩
    cases e with
    | some err => simp [RegisteredType.List, hC]
    | none =>
      rcases hF : rt.DB.Find s1 (if page > 0 then some (mulInt page limit) else none)
        (if limit > 0 then some limit else none) with ⟨s2, xs, e'⟩
      cases e' with
      | none => simp [RegisteredType.List, hC, World.ran, hF]
      | some err =>
        by_cases he : err.IsRecordNotFound = true <;>
          simp [RegisteredType.List, hC, World.ran, hF, he]

end autorest
